import Mathlib

/-!
Verification of the delta-aware analysis/generation/injection pipeline of the
schema-markup-generator repository (a shallow embedding in Lean 4).

The embedding covers:
* a JSON value type and a JSON parser (modelling `JSON.parse` up to host
  number/unicode details),
* the client-side validator (`src/services/validationService.ts`),
* the fetch gateway, page analyzer and WordPress injector
  (`src/services/wordpressService.ts`),
* the orchestrator's batch drivers, suggestion phase and generation loop
  (the `App` component), and
* the cache-aware page analyzer described by the specification (whose
  implementation file is not part of the source snapshot; only its callers
  and the `SchemaStatus.Cached` / `AuditRecommended` declarations are).

Network and DOM behaviour is represented by explicit environments: a fetch
returns an outcome (a response carrying an already-DOM-parsed page, a thrown
`TypeError`, or another thrown error), and host `Date.parse` / `new URL`
behaviour is a parameter of the validator.
-/

/-- A JSON value as produced by `JSON.parse`.  Numeric literals are kept as
their lexemes: no claim depends on numeric semantics, only on parseability
and on string/array/object structure. -/
inductive Json where
  | null : Json
  | bool (b : Bool) : Json
  | num (lexeme : String) : Json
  | str (s : String) : Json
  | arr (elems : List Json) : Json
  | obj (fields : List (String × Json)) : Json

/-- JSON whitespace (the four characters `JSON.parse` skips). -/
def jsonWsChar (c : Char) : Bool :=
  c == ' ' || c == '\t' || c == '\n' || c == '\r'

def skipJsonWs (cs : List Char) : List Char :=
  cs.dropWhile jsonWsChar

def isJsonHexDigit (c : Char) : Bool :=
  c.isDigit || ('a' ≤ c && c ≤ 'f') || ('A' ≤ c && c ≤ 'F')

def jsonHexVal (c : Char) : Nat :=
  if c.isDigit then c.toNat - '0'.toNat
  else if 'a' ≤ c && c ≤ 'f' then c.toNat - 'a'.toNat + 10
  else c.toNat - 'A'.toNat + 10

/-- The body of a JSON string literal, after the opening quote.  Returns the
decoded characters and the input past the closing quote. -/
def parseStringBody : List Char → Option (List Char × List Char)
  | [] => none
  | '"' :: rest => some ([], rest)
  | '\\' :: 'u' :: h1 :: h2 :: h3 :: h4 :: rest =>
    if isJsonHexDigit h1 && isJsonHexDigit h2 && isJsonHexDigit h3 && isJsonHexDigit h4 then
      (parseStringBody rest).map fun p =>
        (Char.ofNat (((jsonHexVal h1 * 16 + jsonHexVal h2) * 16 + jsonHexVal h3) * 16
          + jsonHexVal h4) :: p.1, p.2)
    else none
  | '\\' :: e :: rest =>
    let decoded : Option Char :=
      if e == '"' then some '"'
      else if e == '\\' then some '\\'
      else if e == '/' then some '/'
      else if e == 'b' then some (Char.ofNat 8)
      else if e == 'f' then some (Char.ofNat 12)
      else if e == 'n' then some '\n'
      else if e == 'r' then some '\r'
      else if e == 't' then some '\t'
      else none
    match decoded with
    | some c => (parseStringBody rest).map fun p => (c :: p.1, p.2)
    | none => none
  | c :: rest =>
    if c.toNat < 32 then none
    else (parseStringBody rest).map fun p => (c :: p.1, p.2)

def digitSpan (cs : List Char) : List Char × List Char :=
  (cs.takeWhile Char.isDigit, cs.dropWhile Char.isDigit)

/-- The fraction part of a JSON number (possibly empty). -/
def parseJsonFrac : List Char → Option (List Char × List Char)
  | '.' :: r =>
    let p := digitSpan r
    if p.1.isEmpty then none else some ('.' :: p.1, p.2)
  | cs => some ([], cs)

/-- The exponent part of a JSON number (possibly empty). -/
def parseJsonExp : List Char → Option (List Char × List Char)
  | c :: s :: r =>
    if c == 'e' || c == 'E' then
      if s == '+' || s == '-' then
        let p := digitSpan r
        if p.1.isEmpty then none else some (c :: s :: p.1, p.2)
      else
        let p := digitSpan (s :: r)
        if p.1.isEmpty then none else some (c :: p.1, p.2)
    else some ([], c :: s :: r)
  | [c] =>
    if c == 'e' || c == 'E' then none else some ([], [c])
  | [] => some ([], [])

/-- A JSON number lexeme: optional minus, integer part with no leading zero,
optional fraction, optional exponent. -/
def parseNumberLexeme (cs : List Char) : Option (List Char × List Char) :=
  let signed : List Char × List Char :=
    match cs with
    | '-' :: r => (['-'], r)
    | _ => ([], cs)
  let ip := digitSpan signed.2
  if ip.1.isEmpty then none
  else if 1 < ip.1.length && ip.1.head? == some '0' then none
  else
    match parseJsonFrac ip.2 with
    | none => none
    | some fp =>
      match parseJsonExp fp.2 with
      | none => none
      | some ep => some (signed.1 ++ ip.1 ++ fp.1 ++ ep.1, ep.2)

mutual

/-- One JSON value, fuel-indexed (the fuel bounds nesting depth). -/
def parseJsonValue : Nat → List Char → Option (Json × List Char)
  | 0, _ => none
  | fuel + 1, cs =>
    match skipJsonWs cs with
    | 'n' :: 'u' :: 'l' :: 'l' :: rest => some (.null, rest)
    | 't' :: 'r' :: 'u' :: 'e' :: rest => some (.bool true, rest)
    | 'f' :: 'a' :: 'l' :: 's' :: 'e' :: rest => some (.bool false, rest)
    | '"' :: rest => (parseStringBody rest).map fun p => (.str (String.mk p.1), p.2)
    | '[' :: rest =>
      (match skipJsonWs rest with
       | ']' :: rest2 => some (.arr [], rest2)
       | cs2 => (parseJsonElems fuel cs2).map fun p => (.arr p.1, p.2))
    | '{' :: rest =>
      (match skipJsonWs rest with
       | '}' :: rest2 => some (.obj [], rest2)
       | cs2 => (parseJsonFields fuel cs2).map fun p => (.obj p.1, p.2))
    | cs1 => (parseNumberLexeme cs1).map fun p => (.num (String.mk p.1), p.2)

/-- The elements of a non-empty JSON array, up to and including `]`. -/
def parseJsonElems : Nat → List Char → Option (List Json × List Char)
  | 0, _ => none
  | fuel + 1, cs =>
    match parseJsonValue fuel cs with
    | none => none
    | some (v, rest) =>
      match skipJsonWs rest with
      | ',' :: rest2 => (parseJsonElems fuel rest2).map fun p => (v :: p.1, p.2)
      | ']' :: rest2 => some ([v], rest2)
      | _ => none

/-- The fields of a non-empty JSON object, up to and including `}`. -/
def parseJsonFields : Nat → List Char → Option (List (String × Json) × List Char)
  | 0, _ => none
  | fuel + 1, cs =>
    match skipJsonWs cs with
    | '"' :: rest =>
      match parseStringBody rest with
      | none => none
      | some (key, rest2) =>
        match skipJsonWs rest2 with
        | ':' :: rest3 =>
          match parseJsonValue fuel rest3 with
          | none => none
          | some (v, rest4) =>
            match skipJsonWs rest4 with
            | ',' :: rest5 =>
              (parseJsonFields fuel rest5).map fun p =>
                ((String.mk key, v) :: p.1, p.2)
            | '}' :: rest5 => some ([(String.mk key, v)], rest5)
            | _ => none
        | _ => none
    | _ => none

end

/-- `JSON.parse`: a single value with only whitespace around it. -/
def jsonParse (s : String) : Option Json :=
  match parseJsonValue (s.length + 1) s.toList with
  | some (v, rest) => if (skipJsonWs rest).isEmpty then some v else none
  | none => none

/-- Property access `j[k]` for a string key: defined only on objects (JS
returns `undefined`, here `none`, for every other value and for absent keys).
For objects built by `JSON.parse` a duplicate key keeps its last occurrence,
hence the reversed search. -/
def Json.getProp : Json → String → Option Json
  | .obj kvs, k => (kvs.reverse.find? (fun kv => kv.1 == k)).map (·.2)
  | _, _ => none

/-- Whether a numeric lexeme denotes zero: every digit of its mantissa is 0. -/
def numLexemeIsZero (lexeme : String) : Bool :=
  (lexeme.toList.takeWhile (fun c => c != 'e' && c != 'E')).all
    (fun c => !c.isDigit || c == '0')

/-- JS truthiness of a parsed JSON value (`undefined` does not arise: an
absent property is `Option.none` at the access site). -/
def Json.truthy : Json → Bool
  | .null => false
  | .bool b => b
  | .num lexeme => !numLexemeIsZero lexeme
  | .str s => !s.isEmpty
  | .arr _ => true
  | .obj _ => true

/-- `typeof v === 'object'` together with truthiness: JS `null` is the one
falsy value of type object, so the combination holds exactly for objects and
arrays. -/
def Json.isObjectLike : Json → Bool
  | .obj _ => true
  | .arr _ => true
  | _ => false

/-- JS `ToString` of a parsed JSON value (used only inside diagnostic
messages).  Array elements join with commas, `null` joining as the empty
string; objects print as `[object Object]`. -/
def Json.jsToString : Json → String
  | .null => "null"
  | .bool b => if b then "true" else "false"
  | .num lexeme => lexeme
  | .str s => s
  | .arr elems => String.intercalate "," (elems.map fun e =>
      match e with
      | .null => ""
      | .obj _ => "[object Object]"
      | .arr _ => "ARRAY"
      | .bool b => if b then "true" else "false"
      | .num lexeme => lexeme
      | .str s => s)
  | .obj _ => "[object Object]"

/-- `src/types.ts` (current revision): the page analysis status. -/
inductive SchemaStatus where
  | Unknown | Found | NotFound | AnalysisFailed | AuditRecommended | Cached
deriving Repr, DecidableEq

/-- `src/types.ts` (current revision): the fixed Schema.org type enumeration. -/
inductive SchemaType where
  | Article | Product | Recipe | LocalBusiness | Organization
  | WebPage | FAQPage | HowTo | VideoObject
deriving Repr, DecidableEq

/-- The TS string value of each `SchemaType` member. -/
def SchemaType.typeName : SchemaType → String
  | .Article => "Article"
  | .Product => "Product"
  | .Recipe => "Recipe"
  | .LocalBusiness => "LocalBusiness"
  | .Organization => "Organization"
  | .WebPage => "WebPage"
  | .FAQPage => "FAQPage"
  | .HowTo => "HowTo"
  | .VideoObject => "VideoObject"

inductive GenerationStatus where
  | NotStarted | Generating | Success | Failed
deriving Repr, DecidableEq

inductive ValidationStatus where
  | NotValidated | Validating | Valid | Invalid
deriving Repr, DecidableEq

inductive InjectionStatus where
  | pending | success | failed
deriving Repr, DecidableEq

/-- `src/types.ts`: the error-code vocabulary of `ValidationDetail`. -/
inductive ValidationCode where
  | MISSING_REQUIRED | MISSING_RECOMMENDED | INVALID_STRUCTURE
  | INVALID_FORMAT | MISSING_PRIMARY_ENTITY | GENERIC_ERROR
deriving Repr, DecidableEq

structure ValidationDetail where
  code : ValidationCode
  message : String
  property : Option String := none
deriving Repr, DecidableEq

structure ValidationResult where
  isValid : Bool
  errors : List ValidationDetail
  warnings : List ValidationDetail
deriving Repr, DecidableEq

/-- Host behaviour the validator depends on: `Date.parse` succeeding on a
value, and `new URL(s)` succeeding on a string.  The theorems below hold for
every such host. -/
structure HostEnv where
  dateParses : Json → Bool
  isValidUrl : String → Bool

/-- `validationService.ts` `hasProperty`: own property present and neither
`null` nor `undefined` nor the empty string (an absent key is `none` here, so
the `undefined` disjunct is absorbed by key presence). -/
def hasProperty (obj : Json) (prop : String) : Bool :=
  match obj with
  | .obj _ =>
    match obj.getProp prop with
    | some .null => false
    | some (.str s) => !(s == "")
    | some _ => true
    | none => false
  | _ => false

/-- `validationService.ts` `isObject`: truthy, of type object, not an array. -/
def isObject (v : Json) : Bool :=
  match v with
  | .obj _ => true
  | _ => false

/-- `validationService.ts` `isString` (the `String`-object branch of the
source cannot arise from parsed JSON). -/
def isString (v : Json) : Bool :=
  match v with
  | .str _ => true
  | _ => false

structure SchemaRules where
  required : List String
  recommended : List String

/-- `validationService.ts` `validationRules`: per-type required/recommended
property names. -/
def validationRules : SchemaType → SchemaRules
  | .Article => ⟨["headline", "datePublished"], ["author", "publisher", "image"]⟩
  | .Product => ⟨["name", "offers"], ["image", "description", "sku", "brand"]⟩
  | .Recipe => ⟨["name", "recipeIngredient"], ["image", "author", "cookTime", "recipeInstructions"]⟩
  | .LocalBusiness => ⟨["name", "address"], ["telephone", "openingHoursSpecification", "geo"]⟩
  | .Organization => ⟨["name"], ["logo", "url", "address"]⟩
  | .WebPage => ⟨["headline"], ["datePublished", "mainEntity"]⟩
  | .FAQPage => ⟨["mainEntity"], []⟩
  | .HowTo => ⟨["name", "step"], ["totalTime", "estimatedCost", "supply", "tool"]⟩
  | .VideoObject => ⟨["name", "description", "uploadDate", "thumbnailUrl"], ["duration", "contentUrl"]⟩

/-- Strict equality `entity['@type'] === schemaType` (true only for the
matching string value). -/
def typeEqualsStr (v : Option Json) (name : String) : Bool :=
  match v with
  | some (.str s) => s == name
  | _ => false

/-- `Array.isArray(entity['@type']) && entity['@type'].includes(schemaType)`. -/
def typeArrayIncludes (v : Option Json) (name : String) : Bool :=
  match v with
  | some (.arr ts) => ts.any fun t =>
      match t with
      | .str s => s == name
      | _ => false
  | _ => false

/-- `validationService.ts` `findPrimaryEntity`: the schema itself when its
top-level `@type` strictly equals the target, else the first `@graph` element
whose `@type` equals or array-includes the target. -/
def findPrimaryEntity (schema : Json) (schemaType : SchemaType) : Option Json :=
  if typeEqualsStr (schema.getProp "@type") schemaType.typeName then
    some schema
  else
    match schema.getProp "@graph" with
    | some (.arr entities) =>
      entities.find? fun entity =>
        entity.truthy &&
          (typeEqualsStr (entity.getProp "@type") schemaType.typeName ||
            typeArrayIncludes (entity.getProp "@type") schemaType.typeName)
    | _ => none

/-- `Array.isArray(v) ? v : [v]`. -/
def jsAsArray (v : Json) : List Json :=
  match v with
  | .arr elems => elems
  | _ => [v]

/-- The value of `entity[prop]` when `hasProperty entity prop` holds. -/
def presentProp (entity : Json) (prop : String) : Option Json :=
  if hasProperty entity prop then entity.getProp prop else none

/-- Article: each `author` entry must be an object with a `name`. -/
def authorErrors (entity : Json) : List ValidationDetail :=
  match presentProp entity "author" with
  | none => []
  | some v =>
    (jsAsArray v).enum.filterMap fun (i, author) =>
      if isObject author && hasProperty author "name" then none
      else some ⟨.INVALID_STRUCTURE,
        s!"'author' #{i + 1} must be an object with a 'name' property.",
        some s!"author[{i}]"⟩

/-- Article: `publisher` must be an object with a `name`. -/
def publisherErrors (entity : Json) : List ValidationDetail :=
  match presentProp entity "publisher" with
  | none => []
  | some publisher =>
    if isObject publisher && hasProperty publisher "name" then []
    else [⟨.INVALID_STRUCTURE,
      "'publisher' must be an Organization object with a 'name' property.",
      some "publisher"⟩]

/-- Article: `datePublished` must parse as a date (host behaviour). -/
def datePublishedErrors (env : HostEnv) (entity : Json) : List ValidationDetail :=
  match presentProp entity "datePublished" with
  | none => []
  | some v =>
    if env.dateParses v then []
    else [⟨.INVALID_FORMAT,
      s!"'datePublished' ({v.jsToString}) is not a valid ISO 8601 date format.",
      some "datePublished"⟩]

/-- Product: each `offers` entry must be an object carrying `price` and
`priceCurrency` (a non-object entry skips the price check, as the source's
early `return` does). -/
def offersErrors (entity : Json) : List ValidationDetail :=
  match presentProp entity "offers" with
  | none => []
  | some v =>
    (jsAsArray v).enum.filterMap fun (i, offer) =>
      if !isObject offer then
        some ⟨.INVALID_STRUCTURE, s!"'offers' #{i + 1} must be an Offer object.",
          some s!"offers[{i}]"⟩
      else if !(hasProperty offer "price" && hasProperty offer "priceCurrency") then
        some ⟨.MISSING_REQUIRED,
          s!"'offers' #{i + 1} is missing required 'price' or 'priceCurrency'.",
          some s!"offers[{i}]"⟩
      else none

/-- LocalBusiness: `address`, if present, must be an object. -/
def addressErrors (entity : Json) : List ValidationDetail :=
  match presentProp entity "address" with
  | none => []
  | some address =>
    if isObject address then []
    else [⟨.INVALID_STRUCTURE, "'address' must be a PostalAddress object.",
      some "address"⟩]

/-- Universal: each `image` entry that is a string must be a valid URL; each
that is an object must carry `url`. -/
def imageErrors (env : HostEnv) (entity : Json) : List ValidationDetail :=
  match presentProp entity "image" with
  | none => []
  | some v =>
    (jsAsArray v).enum.filterMap fun (i, image) =>
      match image with
      | .str s =>
        if env.isValidUrl s then none
        else some ⟨.INVALID_FORMAT, s!"'image' #{i + 1} URL is not valid.",
          some s!"image[{i}]"⟩
      | .obj _ =>
        if hasProperty image "url" then none
        else some ⟨.MISSING_REQUIRED,
          s!"'image' #{i + 1} object is missing required 'url' property.",
          some s!"image[{i}]"⟩
      | _ => none

/-- `validationService.ts` `validateEntityProperties`: the type-specific deep
checks.  Only `errors` is ever extended (the source's `warnings` parameter is
never written). -/
def validateEntityProperties (env : HostEnv) (entity : Json) (t : SchemaType) :
    List ValidationDetail :=
  (if t = .Article then
    authorErrors entity ++ publisherErrors entity ++ datePublishedErrors env entity
   else []) ++
  (if t = .Product then offersErrors entity else []) ++
  (if t = .LocalBusiness then addressErrors entity else []) ++
  imageErrors env entity

/-- The required-property pass of `validateSchemaClientSide`: one
`MISSING_REQUIRED` error per absent required property, in rule order. -/
def requiredErrorsOf (primaryEntity : Json) (schemaType : SchemaType) :
    List ValidationDetail :=
  (validationRules schemaType).required.filterMap fun prop =>
    if hasProperty primaryEntity prop then none
    else some ⟨.MISSING_REQUIRED, s!"Missing required property: '{prop}'.",
      some prop⟩

/-- The recommended-property pass: one `MISSING_RECOMMENDED` warning per
absent recommended property. -/
def recommendedWarningsOf (primaryEntity : Json) (schemaType : SchemaType) :
    List ValidationDetail :=
  (validationRules schemaType).recommended.filterMap fun prop =>
    if hasProperty primaryEntity prop then none
    else some ⟨.MISSING_RECOMMENDED, s!"Missing recommended property: '{prop}'.",
      some prop⟩

/-- The body of `validateSchemaClientSide` once a primary entity is located:
required errors, recommended warnings, and — only when no required property
is missing — the deep per-type checks. -/
def checkEntity (env : HostEnv) (primaryEntity : Json) (schemaType : SchemaType) :
    ValidationResult :=
  let requiredErrors := requiredErrorsOf primaryEntity schemaType
  let errors := requiredErrors ++
    (if requiredErrors.isEmpty then
      validateEntityProperties env primaryEntity schemaType
     else [])
  ⟨errors.isEmpty, errors, recommendedWarningsOf primaryEntity schemaType⟩

/-- `validationService.ts` `validateSchemaClientSide`.  The input is `none`
for JS `null`/`undefined`; the defensive `!rules` branch of the source is
unreachable because `validationRules` is total over the `SchemaType` enum. -/
def validateSchemaClientSide (env : HostEnv) (schema : Option Json)
    (schemaType : SchemaType) : ValidationResult :=
  match schema with
  | none =>
    ⟨false, [⟨.GENERIC_ERROR, "Schema is not a valid JSON object.", none⟩], []⟩
  | some s =>
    if !(s.truthy && s.isObjectLike) then
      ⟨false, [⟨.GENERIC_ERROR, "Schema is not a valid JSON object.", none⟩], []⟩
    else
      match findPrimaryEntity s schemaType with
      | none =>
        ⟨false, [⟨.MISSING_PRIMARY_ENTITY,
          s!"The primary entity with \"@type\": \"{schemaType.typeName}\" could not be found in the schema graph.",
          none⟩], []⟩
      | some primaryEntity => checkEntity env primaryEntity schemaType

/-- A fetched page after DOM parsing (`DOMParser` itself is outside the
pipeline): the `<title>` text, the body of the first
`script[type="application/ld+json"]` element if one exists, and the body's
text with script/style elements already stripped. -/
structure HtmlPage where
  title : Option String
  ldJsonBody : Option String
  bodyText : String
deriving Repr, DecidableEq

structure HttpResponse where
  status : Nat
  page : HtmlPage
deriving Repr, DecidableEq

/-- `Response.ok`: status in the 2xx range. -/
def HttpResponse.isOk (r : HttpResponse) : Bool :=
  200 ≤ r.status && r.status < 300

/-- What one `fetch` call does: resolve with a response (any status), throw a
`TypeError` (the network/CORS failure case), or throw some other exception
(e.g. an abort). -/
inductive FetchOutcome where
  | resp (r : HttpResponse)
  | typeError (msg : String)
  | otherError (msg : String)
deriving Repr, DecidableEq

/-- The network behaviour a single logical fetch can observe: the outcome of
the direct attempt and, were it consulted, of the proxied attempt. -/
structure FetchEnv where
  direct : FetchOutcome
  proxy : FetchOutcome
deriving Repr, DecidableEq

/-- `wordpressService.ts` `fetchWithCorsFallback`, paired with the number of
network attempts it performs.  A direct response (any status) returns
immediately; a thrown `TypeError` triggers the single proxy retry, whose
response is returned as-is and whose failure (of any kind) becomes the
combined error; any other thrown error is re-thrown with no proxy attempt. -/
def fetchWithCorsFallback (env : FetchEnv) : Except String HttpResponse × Nat :=
  match env.direct with
  | .resp r => (.ok r, 1)
  | .typeError _ =>
    match env.proxy with
    | .resp r => (.ok r, 2)
    | .typeError _ =>
      (.error "Failed to fetch via both direct connection and proxy. The server may be down or blocking requests.", 2)
    | .otherError _ =>
      (.error "Failed to fetch via both direct connection and proxy. The server may be down or blocking requests.", 2)
  | .otherError msg => (.error msg, 1)

def isJsWhitespace (c : Char) : Bool :=
  c == ' ' || c == '\t' || c == '\n' || c == '\r' ||
  c == Char.ofNat 11 || c == Char.ofNat 12

/-- `replace(/\s\s+/g, ' ')`: a maximal run of two or more whitespace
characters becomes one space; a lone whitespace character stays itself
(two adjacent whitespace characters merge into one space, repeatedly). -/
def collapseWhitespaceRuns : List Char → List Char
  | [] => []
  | [c] => [c]
  | c :: d :: rest =>
    if isJsWhitespace c && isJsWhitespace d then
      collapseWhitespaceRuns (' ' :: rest)
    else
      c :: collapseWhitespaceRuns (d :: rest)
termination_by cs => cs.length
decreasing_by
  · simp
  · simp

/-- `content.replace(/\s\s+/g, ' ').trim()`. -/
def cleanWhitespace (s : String) : String :=
  (String.mk (collapseWhitespaceRuns s.toList)).trim

/-- `src/types.ts` `UrlInfo`, the central per-page record. -/
structure UrlInfo where
  url : String
  title : String
  schemaStatus : SchemaStatus
  content : Option String := none
  analysisError : Option String := none
  existingSchema : Option Json := none
  selectedSchemaType : SchemaType := .Article
  opportunities : List SchemaType := []
  generationStatus : GenerationStatus := .NotStarted
  validationStatus : ValidationStatus := .NotValidated
  validationErrors : List ValidationDetail := []
  validationWarnings : List ValidationDetail := []
  generationError : Option String := none
  schema : Option Json := none
  injectionStatus : Option InjectionStatus := none
  injectionError : Option String := none

/-- `document.title?.textContent || 'No Title Found'` (the empty string is
falsy, so it also falls back). -/
def titleOrDefault (t : Option String) : String :=
  match t with
  | some s => if s == "" then "No Title Found" else s
  | none => "No Title Found"

/-- `wordpressService.ts` `analyzeUrl` (the revision in `src/`): fetch the
page through the CORS-fallback gateway; a thrown error or a non-2xx status
is caught and reported as `AnalysisFailed`; otherwise the page classifies as
`Found` exactly when a JSON-LD script element is present.  Total by
construction: every outcome returns a record, no exception escapes. -/
def analyzeUrl (net : String → FetchEnv) (url : String) : UrlInfo :=
  match (fetchWithCorsFallback (net url)).1 with
  | .error msg =>
    { url := url, title := "Failed to analyze URL", schemaStatus := .AnalysisFailed,
      analysisError := some msg }
  | .ok r =>
    if !r.isOk then
      { url := url, title := "Failed to analyze URL", schemaStatus := .AnalysisFailed,
        analysisError := some s!"Server responded with status {r.status}" }
    else
      { url := url, title := titleOrDefault r.page.title,
        schemaStatus := if r.page.ldJsonBody.isSome then .Found else .NotFound,
        content := some (cleanWhitespace r.page.bodyText) }

/-- Whether the page fetch underlying `analyzeUrl` fails (thrown error or
non-2xx response). -/
def pageFetchFails (net : String → FetchEnv) (url : String) : Bool :=
  match (fetchWithCorsFallback (net url)).1 with
  | .error _ => true
  | .ok r => !r.isOk

/-- Outcome of a slug query `GET /wp-json/wp/v2/:type?slug=X`: a response
with a status and the ids of the returned objects, or a thrown error. -/
inductive QueryOutcome where
  | resp (status : Nat) (ids : List Nat)
  | threw (msg : String)
deriving Repr, DecidableEq

/-- Outcome of a metadata update `POST /wp-json/wp/v2/:type/:id`: a response
with a status and the `message` field of its JSON body if it has one, or a
thrown error. -/
inductive UpdateOutcome where
  | resp (status : Nat) (message : Option String)
  | threw (msg : String)
deriving Repr, DecidableEq

inductive WpPostType where
  | posts | pages
deriving Repr, DecidableEq

/-- The WordPress REST surface the injector talks to. -/
structure WpSite where
  postsBySlug : String → QueryOutcome
  pagesBySlug : String → QueryOutcome
  updatePost : Nat → UpdateOutcome
  updatePage : Nat → UpdateOutcome

def statusIsOk (status : Nat) : Bool :=
  200 ≤ status && status < 300

/-- `pathname.split('/')` over characters. -/
def splitOnSlash : List Char → List (List Char)
  | [] => [[]]
  | c :: rest =>
    let r := splitOnSlash rest
    if c == '/' then [] :: r
    else (c :: r.headD []) :: r.tail

/-- `new URL(url).pathname.split('/').filter(Boolean)` and taking the last
segment (the input here is the URL's pathname). -/
def slugOfPath (pathname : String) : Option String :=
  (((splitOnSlash pathname.toList).map String.mk).filter
    (fun s => !s.isEmpty)).getLast?

/-- `wordpressService.ts` `getPostIdFromUrl`: last path segment as slug,
query posts then pages by slug, first non-empty `ok` result wins; any thrown
error (the whole body sits in one `try`) yields `null`. -/
def getPostIdFromUrl (site : WpSite) (pathname : String) : Option Nat :=
  match slugOfPath pathname with
  | none => none
  | some slug =>
    match site.postsBySlug slug with
    | .threw _ => none
    | .resp status ids =>
      if statusIsOk status && !ids.isEmpty then ids.head?
      else
        match site.pagesBySlug slug with
        | .threw _ => none
        | .resp status2 ids2 =>
          if statusIsOk status2 && !ids2.isEmpty then ids2.head? else none

/-- The injector's result, instrumented with the trace of update attempts it
made (in order), so that attempt counts are statable. -/
structure InjectOutcome where
  success : Bool
  error : Option String := none
  attempts : List (WpPostType × UpdateOutcome) := []
deriving Repr, DecidableEq

def updateOf (site : WpSite) (postId : Nat) : WpPostType → UpdateOutcome
  | .posts => site.updatePost postId
  | .pages => site.updatePage postId

/-- The `for (const postType of postTypesToTry)` loop of
`wordpressService.ts` `injectSchema`: an `ok` response succeeds; a non-404
error response is fatal with the API's `message` (or a status fallback);
a 404, or a thrown error, falls through to the next candidate type. -/
def tryInjectInto (site : WpSite) (postId : Nat) :
    List WpPostType → List (WpPostType × UpdateOutcome) → InjectOutcome
  | [], trace =>
    { success := false,
      error := some s!"Could not find post/page with ID {postId} in common post types.",
      attempts := trace.reverse }
  | postType :: rest, trace =>
    let outcome := updateOf site postId postType
    match outcome with
    | .resp status message =>
      if statusIsOk status then
        { success := true, attempts := ((postType, outcome) :: trace).reverse }
      else if status != 404 then
        { success := false,
          error := some (message.getD s!"Failed to inject schema. Status: {status}"),
          attempts := ((postType, outcome) :: trace).reverse }
      else
        tryInjectInto site postId rest ((postType, outcome) :: trace)
    | .threw _ => tryInjectInto site postId rest ((postType, outcome) :: trace)

/-- `wordpressService.ts` `injectSchema`: resolve the content id from the
URL's slug, then attempt the metadata write against posts then pages. -/
def injectSchema (site : WpSite) (pathname : String) : InjectOutcome :=
  match getPostIdFromUrl site pathname with
  | none =>
    { success := false,
      error := some s!"Could not find a matching post/page in WordPress for URL: {pathname}" }
  | some postId => tryInjectInto site postId [.posts, .pages] []

/-- A persisted cache entry (spec §3 `CacheEntry`; `lastCheckedAt` is never
read by the pipeline and is omitted). -/
structure CacheEntry where
  schemaStatus : SchemaStatus
  title : String
  existingSchema : Option Json := none

/-- Spec §4.4 step 1: the cache short-circuits when an entry exists and its
recorded status is `Found` or `AuditRecommended`. -/
def cacheHit (cache : String → Option CacheEntry) (url : String) : Bool :=
  match cache url with
  | some entry =>
    entry.schemaStatus == .Found || entry.schemaStatus == .AuditRecommended
  | none => false

/-- The non-cached path of `analyzeUrlCached` (spec §4.4 steps 2-5): fetch,
classify, and produce the cache entry to write. -/
def analyzeUrlFetchPath (net : String → FetchEnv) (url : String) :
    UrlInfo × Nat × Option CacheEntry :=
  let fetched := fetchWithCorsFallback (net url)
  match fetched.1 with
  | .error msg =>
    ({ url := url, title := "Failed to analyze URL", schemaStatus := .AnalysisFailed,
       analysisError := some msg }, fetched.2, none)
  | .ok r =>
    if !r.isOk then
      ({ url := url, title := "Failed to analyze URL", schemaStatus := .AnalysisFailed,
         analysisError := some s!"Server responded with status {r.status}" },
       fetched.2, none)
    else
      let title := titleOrDefault r.page.title
      let content := cleanWhitespace r.page.bodyText
      let classified : SchemaStatus × Option Json :=
        match r.page.ldJsonBody with
        | some body =>
          match jsonParse body with
          | some j => (.AuditRecommended, some j)
          | none => (.NotFound, none)
        | none => (.NotFound, none)
      ({ url := url, title := title, schemaStatus := classified.1,
         content := some content, existingSchema := classified.2 },
       fetched.2,
       some ⟨classified.1, title, classified.2⟩)

/-- Modelled from the spec: the current two-argument cache-aware
`analyzeUrl(url, siteUrl)` of `wordpressService` is not among the source
files — only its caller (`performAnalysis` in the `App` component) and the
`SchemaStatus.AuditRecommended`/`Cached` declarations are.  Spec §4.4:
1. an existing cache entry with status `Found` or `AuditRecommended`
   short-circuits to `Cached`, reusing the cached title and existing schema,
   with zero network fetches;
2. otherwise the page is fetched through the gateway; a failure returns
   `AnalysisFailed` with the captured message and no content;
3. title and whitespace-collapsed text content are extracted;
4. a JSON-LD script whose body parses is `AuditRecommended` with
   `existingSchema` populated; an unparseable or absent one is `NotFound`;
5. the resulting status/title/existing schema are written back to the cache
   (after every non-cached analysis reaching a classification).
Returns the record, the number of network fetches performed, and the cache
entry written (if any). -/
def analyzeUrlCached (cache : String → Option CacheEntry)
    (net : String → FetchEnv) (url : String) :
    UrlInfo × Nat × Option CacheEntry :=
  match cache url with
  | some entry =>
    if entry.schemaStatus == .Found || entry.schemaStatus == .AuditRecommended then
      ({ url := url, title := entry.title, schemaStatus := .Cached,
         existingSchema := entry.existingSchema }, 0, none)
    else
      analyzeUrlFetchPath net url
  | none => analyzeUrlFetchPath net url

/-- Fuel-indexed body of `chunksOf` (the fuel, an upper bound on the list
length, only serves structural termination). -/
def chunksOfFuel (n : Nat) : Nat → List α → List (List α)
  | _, [] => []
  | 0, _ :: _ => []
  | fuel + 1, x :: xs => (x :: xs.take (n - 1)) :: chunksOfFuel n fuel (xs.drop (n - 1))

/-- The `for (let i = 0; i < n; i += LIMIT)` slicing of the batch loops:
consecutive slices of at most `n` elements, in input order. -/
def chunksOf (n : Nat) (l : List α) : List (List α) :=
  chunksOfFuel n l.length l

/-- `Promise.all` over one batch, made sensitive to completion order: the
requests of the batch are issued together; `order` lists the indices in the
order the responses come back; each completion stores its value at its own
index.  Returns the assembled results once every slot is filled. -/
def settleAll (f : α → β) (batch : List α) (order : List Nat) : Option (List β) :=
  let slots : List (Option β) :=
    order.foldl (fun acc j =>
      match batch[j]? with
      | some a => acc.set j (some (f a))
      | none => acc)
      (List.replicate batch.length none)
  if slots.all (·.isSome) then some (slots.filterMap id) else none

/-- The sequential per-batch barrier of `performAnalysis`: batch `k` settles
completely (with completion order `orders[k]`) before batch `k+1` is
issued; each batch's results are appended in batch order. -/
def runBatches (f : α → β) : List (List α) → List (List Nat) → Option (List β)
  | [], _ => some []
  | batch :: batches, order :: orders =>
    match settleAll f batch order, runBatches f batches orders with
    | some results, some rest => some (results ++ rest)
    | _, _ => none
  | _ :: _, [] => none

/-- `App` `performAnalysis`, analysis phase: `CONCURRENCY_LIMIT = 10`
batches over the input URL list, driven by an arbitrary per-URL analyzer
`f` (the real one is `analyzeUrl`); `orders` gives each batch's completion
order. -/
def batchedAnalysis (f : String → UrlInfo) (urlsToAnalyze : List String)
    (orders : List (List Nat)) : Option (List UrlInfo) :=
  runBatches f (chunksOf 10 urlsToAnalyze) orders

/-- The AI facade as the orchestrator sees it: the one-shot suggestion call
may throw (`Except.error`); opportunity detection never throws (the adapters
return `[]` on failure); generation and audit may throw per item. -/
structure AiEnv where
  suggest : List (String × String) → Except String (List (String × SchemaType))
  detect : String → List SchemaType
  generate : String → Except String Json
  audit : String → Except String Json

/-- `performAnalysis`: the URLs sent to the one-time suggestion call —
status `NotFound` and not the failure sentinel title. -/
def urlsToSuggestOf (analysisResults : List UrlInfo) : List (String × String) :=
  (analysisResults.filter fun u =>
    u.schemaStatus == .NotFound && u.title != "Failed to analyze URL").map
    fun u => (u.url, u.title)

/-- `performAnalysis`: the URLs sent to per-URL opportunity detection —
status `NotFound` with truthy (non-empty) content. -/
def opportunitiesFor (ai : AiEnv) (u : UrlInfo) : List SchemaType :=
  if u.schemaStatus == .NotFound then
    match u.content with
    | some c => if c == "" then [] else ai.detect c
    | none => []
  else []

/-- The per-record finalization of `performAnalysis`: the suggested type (or
the `Article` default when the suggestion mapping has no entry for the URL),
detected opportunities, and reset generation/validation statuses. -/
def applySuggestions (ai : AiEnv) (suggestions : List (String × SchemaType))
    (u : UrlInfo) : UrlInfo :=
  { u with
    selectedSchemaType :=
      ((suggestions.find? fun p => p.1 == u.url).map (·.2)).getD .Article,
    opportunities := opportunitiesFor ai u,
    generationStatus := .NotStarted,
    validationStatus := .NotValidated }

/-- `App` `performAnalysis`, suggestion phase (after the analysis batches):
the one-time `suggestSchemaTypes` call is *not* wrapped in a `try` — a
thrown `AiError` propagates out of `performAnalysis` (aborting the run in
`handleStartAnalysis`/`runAutoPilot`); when it succeeds (or is skipped
because no URL qualifies), every record is finalized, defaulting missing
suggestions to `Article`. -/
def suggestionPhase (ai : AiEnv) (analysisResults : List UrlInfo) :
    Except String (List UrlInfo) :=
  let urlsToSuggest := urlsToSuggestOf analysisResults
  match (if urlsToSuggest.isEmpty then .ok [] else ai.suggest urlsToSuggest) with
  | .error e => .error e
  | .ok suggestions => .ok (analysisResults.map (applySuggestions ai suggestions))

/-- Whether a URL is generated via audit-and-upgrade or plain generation,
and the outcome applied to the record (`App` `performGeneration`, one loop
iteration, restricted to the record carrying the matching URL). -/
def generationOutcome (ai : AiEnv) (u : UrlInfo) : Except String Json :=
  if u.schemaStatus == .AuditRecommended then ai.audit u.url else ai.generate u.url

/-- The update `performGeneration` applies to the matching record: a
successful generation stores the schema and its validation verdict; a thrown
error is caught in the per-item `try` and recorded as `Failed` with the
captured message — it never unwinds past this item. -/
def applyGeneration (ai : AiEnv) (env : HostEnv) (outcomeOf : UrlInfo)
    (u : UrlInfo) : UrlInfo :=
  match generationOutcome ai outcomeOf with
  | .ok schema =>
    let validationResult := validateSchemaClientSide env (some schema)
      outcomeOf.selectedSchemaType
    { u with
      schema := some schema,
      generationStatus := .Success,
      validationStatus := if validationResult.isValid then .Valid else .Invalid,
      validationErrors := validationResult.errors,
      validationWarnings := validationResult.warnings }
  | .error msg =>
    { u with generationStatus := .Failed, generationError := some msg }

/-- One iteration of the `for (const urlInfo of urlsToGenerate)` loop:
`currentList.map` replaces every record whose URL matches the item being
processed. -/
def generationStep (ai : AiEnv) (env : HostEnv) (urlInfo : UrlInfo)
    (currentList : List UrlInfo) : List UrlInfo :=
  currentList.map fun u =>
    if u.url == urlInfo.url then applyGeneration ai env urlInfo u else u

/-- `App` `performGeneration`: strictly sequential per-URL generation/audit
over a working copy of the selected list; total by construction (each
iteration's `try` catches its own failure). -/
def performGeneration (ai : AiEnv) (env : HostEnv)
    (urlsToGenerate : List UrlInfo) : List UrlInfo :=
  urlsToGenerate.foldl (fun currentList u => generationStep ai env u currentList)
    urlsToGenerate

/-- `Step2UrlList.tsx` `canBeSelected`: a page is selectable for processing
iff its status is `NotFound` or `AuditRecommended`. -/
def canBeSelected (u : UrlInfo) : Bool :=
  u.schemaStatus == .NotFound || u.schemaStatus == .AuditRecommended

/-- `App` `runAutoPilot` `urlsToProcess`: the same selectability filter. -/
def urlsToProcessOf (analyzedUrls : List UrlInfo) : List UrlInfo :=
  analyzedUrls.filter fun u =>
    u.schemaStatus == .NotFound || u.schemaStatus == .AuditRecommended

/-- JS truthiness of the `u.schema` field (`null`/absent is falsy). -/
def schemaTruthy (u : UrlInfo) : Bool :=
  match u.schema with
  | some j => j.truthy
  | none => false

/-- `App` `handleInject` `schemasToInject`: selected, client-side `Valid`,
and carrying a truthy schema.  Injection is attempted for exactly the
members of this list. -/
def schemasToInjectOf (selectedUrls : String → Bool) (urlList : List UrlInfo) :
    List UrlInfo :=
  urlList.filter fun u =>
    selectedUrls u.url && u.validationStatus == .Valid && schemaTruthy u

/-- `App` `runAutoPilot` `validSchemas`: the auto-pilot injection filter. -/
def validSchemasOf (generatedUrlList : List UrlInfo) : List UrlInfo :=
  generatedUrlList.filter fun u =>
    u.validationStatus == .Valid && schemaTruthy u

/-! ## Theorems -/

/-- Whether an `Except` result is the error case. -/
def exceptIsError : Except String HttpResponse → Bool
  | .error _ => true
  | .ok _ => false

/-- C6, counterexample.  The claim says the gateway "fails only after both a
direct attempt and a single same-request retry through the CORS-relay proxy
have failed".  A direct attempt that throws a non-`TypeError` exception
(e.g. an abort) is re-thrown at once: the gateway fails after a single
network attempt, without consulting a proxy that here would even have
succeeded. -/
theorem fetchWithCorsFallback_single_attempt_failure :
    exceptIsError (fetchWithCorsFallback
      ⟨.otherError "The user aborted a request.",
       .resp ⟨200, ⟨some "T", none, ""⟩⟩⟩).1 = true
    ∧ (fetchWithCorsFallback
      ⟨.otherError "The user aborted a request.",
       .resp ⟨200, ⟨some "T", none, ""⟩⟩⟩).2 = 1 := by
  exact ⟨rfl, rfl⟩

/-- C6, amended.  The gateway performs at most 2 network attempts; a direct
*response* — 4xx/5xx included — is returned as-is with no proxy retry; a
direct `TypeError` (the network/CORS failure indicator) triggers exactly one
proxy retry, and only in that case does failure mean that both attempts
failed (the proxy returned no response); a direct non-`TypeError` exception
is re-thrown after the single direct attempt with no proxy retry. -/
theorem fetchWithCorsFallback_amended (env : FetchEnv) :
    (fetchWithCorsFallback env).2 ≤ 2
    ∧ (∀ r, env.direct = .resp r → fetchWithCorsFallback env = (.ok r, 1))
    ∧ (∀ m, env.direct = .typeError m →
        (fetchWithCorsFallback env).2 = 2
        ∧ (∀ r, env.proxy = .resp r → (fetchWithCorsFallback env).1 = .ok r)
        ∧ (exceptIsError (fetchWithCorsFallback env).1 = true →
            ∀ r, env.proxy ≠ .resp r))
    ∧ (∀ m, env.direct = .otherError m →
        fetchWithCorsFallback env = (.error m, 1)) := by
  obtain ⟨direct, proxy⟩ := env
  refine ⟨?_, ?_, ?_, ?_⟩
  · cases direct <;> cases proxy <;> simp [fetchWithCorsFallback]
  · intro r h
    subst h
    rfl
  · intro m h
    subst h
    refine ⟨by cases proxy <;> rfl, ?_, ?_⟩
    · intro r h2
      subst h2
      rfl
    · intro herr r h2
      subst h2
      simp [fetchWithCorsFallback, exceptIsError] at herr
  · intro m h
    subst h
    rfl

/-- C6, witness for the amended theorem: a direct 500 response is returned
as-is after one attempt; a direct `TypeError` with an unreachable proxy
fails with two attempts made; a direct abort is re-thrown after one
attempt. -/
theorem fetchWithCorsFallback_amended_witness :
    fetchWithCorsFallback ⟨.resp ⟨500, ⟨none, none, ""⟩⟩, .typeError "x"⟩ =
      (.ok ⟨500, ⟨none, none, ""⟩⟩, 1)
    ∧ (fetchWithCorsFallback ⟨.typeError "cors", .typeError "cors"⟩).2 = 2
    ∧ fetchWithCorsFallback ⟨.otherError "aborted", .typeError "x"⟩ =
      (.error "aborted", 1) :=
  ⟨(fetchWithCorsFallback_amended _).2.1 _ rfl,
   ((fetchWithCorsFallback_amended _).2.2.1 "cors" rfl).1,
   (fetchWithCorsFallback_amended _).2.2.2 "aborted" rfl⟩

/-- C1.  When a cache entry exists for the URL and records status `Found` or
`AuditRecommended`, the cache-aware analyzer short-circuits: zero network
fetches, status `Cached`, and the cached title and existing schema are
reused (spec-modelled; see `analyzeUrlCached`). -/
theorem analyzeUrlCached_short_circuit (cache : String → Option CacheEntry)
    (net : String → FetchEnv) (url : String) (entry : CacheEntry)
    (hentry : cache url = some entry)
    (hstatus : entry.schemaStatus = .Found ∨ entry.schemaStatus = .AuditRecommended) :
    analyzeUrlCached cache net url =
      ({ url := url, title := entry.title, schemaStatus := .Cached,
         existingSchema := entry.existingSchema }, 0, none) := by
  have hcond : (entry.schemaStatus == SchemaStatus.Found
      || entry.schemaStatus == SchemaStatus.AuditRecommended) = true := by
    rcases hstatus with h | h <;> rw [h] <;> rfl
  simp [analyzeUrlCached, hentry, hcond]

/-- C1, witness: a concrete cache entry with status `Found` short-circuits a
network that would otherwise fail. -/
theorem analyzeUrlCached_short_circuit_witness :
    analyzeUrlCached
      (fun _ => some ⟨.Found, "Cached Title", some (Json.arr [Json.num "1"])⟩)
      (fun _ => ⟨.typeError "net down", .typeError "net down"⟩)
      "https://example.com/post" =
      ({ url := "https://example.com/post", title := "Cached Title",
         schemaStatus := .Cached,
         existingSchema := some (Json.arr [Json.num "1"]) }, 0, none) :=
  analyzeUrlCached_short_circuit _ _ _ _ rfl (Or.inl rfl)

/-- C2.  With no cache short-circuit and a successful page fetch whose HTML
carries a JSON-LD script block: an unparseable body classifies as `NotFound`
(never `AuditRecommended`) with no existing schema; a parseable body
classifies as `AuditRecommended` with `existingSchema` populated
(spec-modelled; see `analyzeUrlCached`). -/
theorem analyzeUrlCached_ldjson_classification (cache : String → Option CacheEntry)
    (net : String → FetchEnv) (url : String) (r : HttpResponse) (body : String)
    (hmiss : cacheHit cache url = false)
    (hfetch : (fetchWithCorsFallback (net url)).1 = .ok r)
    (hok : r.isOk = true)
    (hbody : r.page.ldJsonBody = some body) :
    (jsonParse body = none →
      (analyzeUrlCached cache net url).1.schemaStatus = .NotFound
      ∧ (analyzeUrlCached cache net url).1.existingSchema = none)
    ∧ (∀ j, jsonParse body = some j →
      (analyzeUrlCached cache net url).1.schemaStatus = .AuditRecommended
      ∧ (analyzeUrlCached cache net url).1.existingSchema = some j) := by
  have hpath : analyzeUrlCached cache net url = analyzeUrlFetchPath net url := by
    cases hc : cache url with
    | none => simp [analyzeUrlCached, hc]
    | some entry =>
      have hcond : (entry.schemaStatus == SchemaStatus.Found
          || entry.schemaStatus == SchemaStatus.AuditRecommended) = false := by
        simpa [cacheHit, hc] using hmiss
      simp [analyzeUrlCached, hc, hcond]
  rw [hpath]
  unfold analyzeUrlFetchPath
  simp only [hfetch, hok, hbody, Bool.not_true, Bool.false_eq_true, if_false]
  constructor
  · intro hparse
    rw [hparse]
    exact ⟨rfl, rfl⟩
  · intro j hparse
    rw [hparse]
    exact ⟨rfl, rfl⟩

/-- C2, witness: `"oops not json"` is rejected by `JSON.parse` and the page
classifies `NotFound`; `"[1]"` parses and the page classifies
`AuditRecommended` carrying the parsed value. -/
theorem analyzeUrlCached_ldjson_classification_witness :
    ((analyzeUrlCached (fun _ => none)
        (fun _ => ⟨.resp ⟨200, ⟨some "T", some "oops not json", "b"⟩⟩, .typeError ""⟩)
        "https://example.com/a").1.schemaStatus = .NotFound
      ∧ (analyzeUrlCached (fun _ => none)
        (fun _ => ⟨.resp ⟨200, ⟨some "T", some "oops not json", "b"⟩⟩, .typeError ""⟩)
        "https://example.com/a").1.existingSchema = none)
    ∧ ((analyzeUrlCached (fun _ => none)
        (fun _ => ⟨.resp ⟨200, ⟨some "T", some "[1]", "b"⟩⟩, .typeError ""⟩)
        "https://example.com/a").1.schemaStatus = .AuditRecommended
      ∧ (analyzeUrlCached (fun _ => none)
        (fun _ => ⟨.resp ⟨200, ⟨some "T", some "[1]", "b"⟩⟩, .typeError ""⟩)
        "https://example.com/a").1.existingSchema = some (Json.arr [Json.num "1"])) :=
  ⟨(analyzeUrlCached_ldjson_classification (fun _ => none)
      (fun _ => ⟨.resp ⟨200, ⟨some "T", some "oops not json", "b"⟩⟩, .typeError ""⟩)
      "https://example.com/a" ⟨200, ⟨some "T", some "oops not json", "b"⟩⟩
      "oops not json" (by rfl) (by rfl) (by rfl) (by rfl)).1 (by rfl),
   (analyzeUrlCached_ldjson_classification (fun _ => none)
      (fun _ => ⟨.resp ⟨200, ⟨some "T", some "[1]", "b"⟩⟩, .typeError ""⟩)
      "https://example.com/a" ⟨200, ⟨some "T", some "[1]", "b"⟩⟩
      "[1]" (by rfl) (by rfl) (by rfl) (by rfl)).2 (Json.arr [Json.num "1"]) (by rfl)⟩

/-- A primary entity can only be located inside an object: every non-object
schema value fails both the top-level strict-equality test and the `@graph`
lookup. -/
theorem findPrimaryEntity_eq_none_of_not_obj (s : Json) (T : SchemaType)
    (h : ∀ kvs, s ≠ .obj kvs) : findPrimaryEntity s T = none := by
  cases s with
  | obj kvs => exact absurd rfl (h kvs)
  | null => rfl
  | bool b => rfl
  | num l => rfl
  | str v => rfl
  | arr l => rfl

/-- C10.  A schema whose *top-level* `@type` is an array containing the
target type, with no `@graph` array, is not recognized: the top-level
comparison is strict string equality (`===`), and array-valued `@type`
matching is applied only to `@graph` elements.  `validate` reports
`MISSING_PRIMARY_ENTITY` and is invalid. -/
theorem validate_toplevel_array_type (env : HostEnv) (kvs : List (String × Json))
    (T : SchemaType) (ts : List Json)
    (htype : (Json.obj kvs).getProp "@type" = some (.arr ts))
    (_hmem : Json.str T.typeName ∈ ts)
    (hgraph : ∀ l, (Json.obj kvs).getProp "@graph" ≠ some (.arr l)) :
    findPrimaryEntity (Json.obj kvs) T = none
    ∧ validateSchemaClientSide env (some (Json.obj kvs)) T =
      ⟨false, [⟨.MISSING_PRIMARY_ENTITY,
        s!"The primary entity with \"@type\": \"{T.typeName}\" could not be found in the schema graph.",
        none⟩], []⟩ := by
  have h1 : typeEqualsStr ((Json.obj kvs).getProp "@type") T.typeName = false := by
    rw [htype]
    rfl
  have hfind : findPrimaryEntity (Json.obj kvs) T = none := by
    unfold findPrimaryEntity
    rw [h1, if_neg Bool.false_ne_true]
    cases hg : (Json.obj kvs).getProp "@graph" with
    | none => rfl
    | some g =>
      cases g with
      | arr l => exact absurd hg (hgraph l)
      | null => rfl
      | bool b => rfl
      | num l => rfl
      | str v => rfl
      | obj o => rfl
  refine ⟨hfind, ?_⟩
  simp [validateSchemaClientSide, Json.truthy, Json.isObjectLike, hfind]

/-- C10, witness: `\x7b"@type": ["Article"]\x7d` (and no `@graph`) is
rejected with one `MISSING_PRIMARY_ENTITY` error. -/
theorem validate_toplevel_array_type_witness :
    validateSchemaClientSide ⟨fun _ => true, fun _ => true⟩
      (some (Json.obj [("@type", Json.arr [Json.str "Article"])])) .Article =
      ⟨false, [⟨.MISSING_PRIMARY_ENTITY,
        "The primary entity with \"@type\": \"Article\" could not be found in the schema graph.",
        none⟩], []⟩ :=
  (validate_toplevel_array_type ⟨fun _ => true, fun _ => true⟩
    [("@type", Json.arr [Json.str "Article"])] .Article [Json.str "Article"]
    (by rfl) (List.mem_singleton.mpr rfl) (by intro l h; simp [Json.getProp] at h)).2

/-- When a primary entity is found the validator's result is exactly the
entity check (required/recommended pass plus gated deep checks). -/
theorem validate_eq_checkEntity (env : HostEnv) (s : Json) (T : SchemaType)
    (entity : Json) (hfind : findPrimaryEntity s T = some entity) :
    validateSchemaClientSide env (some s) T = checkEntity env entity T := by
  cases s with
  | obj kvs => simp [validateSchemaClientSide, Json.truthy, Json.isObjectLike, hfind]
  | null =>
    rw [findPrimaryEntity_eq_none_of_not_obj _ T (fun kvs h => Json.noConfusion h)] at hfind
    exact Option.noConfusion hfind
  | bool b =>
    rw [findPrimaryEntity_eq_none_of_not_obj _ T (fun kvs h => Json.noConfusion h)] at hfind
    exact Option.noConfusion hfind
  | num l =>
    rw [findPrimaryEntity_eq_none_of_not_obj _ T (fun kvs h => Json.noConfusion h)] at hfind
    exact Option.noConfusion hfind
  | str v =>
    rw [findPrimaryEntity_eq_none_of_not_obj _ T (fun kvs h => Json.noConfusion h)] at hfind
    exact Option.noConfusion hfind
  | arr l =>
    rw [findPrimaryEntity_eq_none_of_not_obj _ T (fun kvs h => Json.noConfusion h)] at hfind
    exact Option.noConfusion hfind

/-- The entity check on an entity missing a required property is invalid and
carries the corresponding `MISSING_REQUIRED` error. -/
theorem checkEntity_missing_required (env : HostEnv) (entity : Json)
    (T : SchemaType) (prop : String)
    (hreq : prop ∈ (validationRules T).required)
    (hmiss : hasProperty entity prop = false) :
    (checkEntity env entity T).isValid = false
    ∧ (⟨.MISSING_REQUIRED, s!"Missing required property: '{prop}'.", some prop⟩
        : ValidationDetail) ∈ (checkEntity env entity T).errors := by
  have hmem : (⟨.MISSING_REQUIRED, s!"Missing required property: '{prop}'.",
      some prop⟩ : ValidationDetail) ∈ requiredErrorsOf entity T := by
    unfold requiredErrorsOf
    exact List.mem_filterMap.mpr ⟨prop, hreq, by rw [hmiss]; rfl⟩
  have hne : requiredErrorsOf entity T ≠ [] := by
    intro h
    rw [h] at hmem
    exact List.not_mem_nil _ hmem
  constructor
  · unfold checkEntity
    cases hre : requiredErrorsOf entity T with
    | nil => exact absurd hre hne
    | cons a l => simp
  · unfold checkEntity
    exact List.mem_append_left _ hmem

/-- C3.  For every `SchemaType` and every schema whose primary entity lacks
a property of that type's required set (absent key, or present but
null/empty-string — `hasProperty` is false), `validate` returns
`isValid = false` with a `MISSING_REQUIRED` error naming that property. -/
theorem validate_missing_required (env : HostEnv) (s : Json) (T : SchemaType)
    (prop : String) (entity : Json)
    (hfind : findPrimaryEntity s T = some entity)
    (hreq : prop ∈ (validationRules T).required)
    (hmiss : hasProperty entity prop = false) :
    (validateSchemaClientSide env (some s) T).isValid = false
    ∧ ∃ d ∈ (validateSchemaClientSide env (some s) T).errors,
        d.code = .MISSING_REQUIRED ∧ d.property = some prop := by
  rw [validate_eq_checkEntity env s T entity hfind]
  obtain ⟨h1, h2⟩ := checkEntity_missing_required env entity T prop hreq hmiss
  exact ⟨h1, ⟨_, h2, rfl, rfl⟩⟩

/-- C3, witness: a `Product` whose primary entity has `name` but no `offers`
is invalid with a `MISSING_REQUIRED` error naming `offers`. -/
theorem validate_missing_required_witness :
    (validateSchemaClientSide ⟨fun _ => true, fun _ => true⟩
      (some (Json.obj [("@type", Json.str "Product"), ("name", Json.str "Widget")]))
      .Product).isValid = false
    ∧ ∃ d ∈ (validateSchemaClientSide ⟨fun _ => true, fun _ => true⟩
        (some (Json.obj [("@type", Json.str "Product"), ("name", Json.str "Widget")]))
        .Product).errors,
        d.code = .MISSING_REQUIRED ∧ d.property = some "offers" :=
  validate_missing_required ⟨fun _ => true, fun _ => true⟩
    (Json.obj [("@type", Json.str "Product"), ("name", Json.str "Widget")])
    .Product "offers"
    (Json.obj [("@type", Json.str "Product"), ("name", Json.str "Widget")])
    (by rfl) (by simp [validationRules]) (by rfl)

/-- C9.  Pipeline invariants: a record is in the injection work list
(`handleInject`'s `schemasToInject`, and auto-pilot's `validSchemas` — the
only lists `performInjection` is ever called with) only when its
`validationStatus` is `Valid` and it carries a (truthy) schema; and a page
is selectable for processing iff its `schemaStatus` is `NotFound` or
`AuditRecommended` (the same filter drives `urlsToProcess`). -/
theorem injection_selectable_invariants (selectedUrls : String → Bool)
    (urlList generatedUrlList : List UrlInfo) (u : UrlInfo) :
    (u ∈ schemasToInjectOf selectedUrls urlList →
      u.validationStatus = .Valid ∧ ∃ j, u.schema = some j ∧ j.truthy = true)
    ∧ (u ∈ validSchemasOf generatedUrlList →
      u.validationStatus = .Valid ∧ ∃ j, u.schema = some j ∧ j.truthy = true)
    ∧ (canBeSelected u = true ↔
        (u.schemaStatus = .NotFound ∨ u.schemaStatus = .AuditRecommended))
    ∧ (u ∈ urlsToProcessOf urlList ↔ u ∈ urlList ∧ canBeSelected u = true) := by
  have hschema : schemaTruthy u = true →
      ∃ j, u.schema = some j ∧ j.truthy = true := by
    intro h
    unfold schemaTruthy at h
    cases hs : u.schema with
    | none => rw [hs] at h; exact Bool.noConfusion h
    | some j => rw [hs] at h; exact ⟨j, rfl, h⟩
  refine ⟨?_, ?_, ?_, ?_⟩
  · intro hmem
    have := (List.mem_filter.mp hmem).2
    simp only [Bool.and_eq_true, beq_iff_eq] at this
    exact ⟨this.1.2, hschema this.2⟩
  · intro hmem
    have := (List.mem_filter.mp hmem).2
    simp only [Bool.and_eq_true, beq_iff_eq] at this
    exact ⟨this.1, hschema this.2⟩
  · unfold canBeSelected
    simp [beq_iff_eq]
  · unfold urlsToProcessOf canBeSelected
    exact List.mem_filter

/-- C9, witness: a selected, valid record carrying a schema is in the
injection list and satisfies the invariant; a `NotFound` record is
selectable. -/
theorem injection_selectable_invariants_witness :
    (({ url := "https://e.com/a", title := "A", schemaStatus := .NotFound,
        validationStatus := .Valid,
        schema := some (Json.obj [("@type", Json.str "Article")]) } : UrlInfo).validationStatus = .Valid
      ∧ ∃ j, ({ url := "https://e.com/a", title := "A", schemaStatus := .NotFound,
                validationStatus := .Valid,
                schema := some (Json.obj [("@type", Json.str "Article")]) } : UrlInfo).schema
            = some j ∧ j.truthy = true)
    ∧ (canBeSelected { url := "https://e.com/a", title := "A",
                       schemaStatus := .NotFound } = true) :=
  ⟨(injection_selectable_invariants (fun _ => true)
      [{ url := "https://e.com/a", title := "A", schemaStatus := .NotFound,
         validationStatus := .Valid,
         schema := some (Json.obj [("@type", Json.str "Article")]) }] []
      { url := "https://e.com/a", title := "A", schemaStatus := .NotFound,
        validationStatus := .Valid,
        schema := some (Json.obj [("@type", Json.str "Article")]) }).1
    (List.mem_filter.mpr ⟨List.mem_singleton.mpr rfl, by rfl⟩),
   ((injection_selectable_invariants (fun _ => true) [] []
      { url := "https://e.com/a", title := "A",
        schemaStatus := .NotFound }).2.2.1).mpr (Or.inl rfl)⟩

/-- C7.  Id resolution queries posts then pages by slug, first match
winning; the metadata write then tries posts then pages for that id: a 404
from the wrong endpoint falls through to the next candidate type, a non-404
error response is fatal with the API's error message.  For a slug matching
only a page, `inject` succeeds after exactly one failed attempt (404 on
posts) and one successful attempt (pages). -/
theorem injectSchema_fallback (site : WpSite) (pathname slug : String)
    (pid : Nat)
    (hslug : slugOfPath pathname = some slug)
    (hposts : site.postsBySlug slug = .resp 200 [])
    (hpages : site.pagesBySlug slug = .resp 200 [pid]) :
    getPostIdFromUrl site pathname = some pid
    ∧ (∀ m m2, site.updatePost pid = .resp 404 m →
        site.updatePage pid = .resp 200 m2 →
        injectSchema site pathname =
          { success := true, error := none,
            attempts := [(.posts, .resp 404 m), (.pages, .resp 200 m2)] })
    ∧ (∀ status msg, site.updatePost pid = .resp status (some msg) →
        statusIsOk status = false → status ≠ 404 →
        injectSchema site pathname =
          { success := false, error := some msg,
            attempts := [(.posts, .resp status (some msg))] }) := by
  have hid : getPostIdFromUrl site pathname = some pid := by
    simp [getPostIdFromUrl, hslug, hposts, hpages, statusIsOk]
  refine ⟨hid, ?_, ?_⟩
  · intro m m2 hpost hpage
    simp [injectSchema, hid, tryInjectInto, updateOf, hpost, hpage, statusIsOk]
  · intro status msg hpost hbad h404
    have hbne : (status != 404) = true := bne_iff_ne.mpr h404
    simp [injectSchema, hid, tryInjectInto, updateOf, hpost, hbad, hbne]

/-- C7, witness: a site where slug `about-us` matches only page 7, whose
posts endpoint 404s and pages endpoint accepts the write; and the same site
with a posts endpoint answering 500 with an API message. -/
theorem injectSchema_fallback_witness :
    injectSchema
      ⟨fun _ => .resp 200 [], fun _ => .resp 200 [7],
       fun _ => .resp 404 (some "rest_post_invalid_id"), fun _ => .resp 200 none⟩
      "/about-us/" =
      { success := true, error := none,
        attempts := [(.posts, .resp 404 (some "rest_post_invalid_id")),
                     (.pages, .resp 200 none)] }
    ∧ injectSchema
      ⟨fun _ => .resp 200 [], fun _ => .resp 200 [7],
       fun _ => .resp 500 (some "Internal server error."), fun _ => .resp 200 none⟩
      "/about-us/" =
      { success := false, error := some "Internal server error.",
        attempts := [(.posts, .resp 500 (some "Internal server error."))] } :=
  ⟨(injectSchema_fallback
      ⟨fun _ => .resp 200 [], fun _ => .resp 200 [7],
       fun _ => .resp 404 (some "rest_post_invalid_id"), fun _ => .resp 200 none⟩
      "/about-us/" "about-us" 7 (by decide) (by rfl) (by rfl)).2.1
      (some "rest_post_invalid_id") none rfl rfl,
   (injectSchema_fallback
      ⟨fun _ => .resp 200 [], fun _ => .resp 200 [7],
       fun _ => .resp 500 (some "Internal server error."), fun _ => .resp 200 none⟩
      "/about-us/" "about-us" 7 (by decide) (by rfl) (by rfl)).2.2
      500 "Internal server error." rfl (by rfl) (by decide)⟩

/-- Supporting lemmas for the batch drivers: `chunksOf` unfolding equations,
flattening and width bounds, and order-insensitivity of `settleAll`. -/
theorem chunksOfFuel_adequate (n : Nat) :
    ∀ (len : Nat) (l : List α) (fuel : Nat), l.length ≤ len → l.length ≤ fuel →
      chunksOfFuel n fuel l = chunksOfFuel n l.length l := by
  intro len
  induction len with
  | zero =>
    intro l fuel h1 h2
    cases l with
    | nil => cases fuel <;> rfl
    | cons x xs => simp at h1
  | succ k ih =>
    intro l fuel h1 h2
    cases l with
    | nil => cases fuel <;> rfl
    | cons x xs =>
      cases fuel with
      | zero => simp at h2
      | succ f =>
        show _ = chunksOfFuel n (xs.length + 1) (x :: xs)
        rw [chunksOfFuel, chunksOfFuel]
        congr 1
        have hd : (xs.drop (n - 1)).length ≤ xs.length := by
          simp [List.length_drop]
        rw [ih (xs.drop (n - 1)) f (by simp at h1; omega) (by simp at h2; omega)]
        rw [ih (xs.drop (n - 1)) xs.length (by simp at h1; omega) hd]

theorem chunksOf_nil (n : Nat) : chunksOf n ([] : List α) = [] := rfl

theorem chunksOf_cons (n : Nat) (x : α) (xs : List α) :
    chunksOf n (x :: xs) =
      (x :: xs.take (n - 1)) :: chunksOf n (xs.drop (n - 1)) := by
  show chunksOfFuel n (xs.length + 1) (x :: xs) = _
  rw [chunksOfFuel]
  rw [chunksOfFuel_adequate n xs.length (xs.drop (n - 1)) xs.length
    (by simp only [List.length_drop]; omega) (by simp only [List.length_drop]; omega)]
  rfl

theorem chunksOf_flatten_aux (n : Nat) :
    ∀ (len : Nat) (l : List α), l.length ≤ len → (chunksOf (n + 1) l).flatten = l := by
  intro len
  induction len with
  | zero =>
    intro l hl
    cases l with
    | nil => rfl
    | cons x xs => simp at hl
  | succ k ih =>
    intro l hl
    cases l with
    | nil => rfl
    | cons x xs =>
      rw [chunksOf_cons]
      simp only [List.flatten_cons, Nat.add_sub_cancel]
      rw [ih (xs.drop n) (by simp only [List.length_drop]; simp at hl; omega)]
      simp [List.take_append_drop]

theorem chunksOf_flatten (n : Nat) (l : List α) :
    (chunksOf (n + 1) l).flatten = l :=
  chunksOf_flatten_aux n l.length l (Nat.le_refl _)

theorem chunksOf_length_le_aux (n : Nat) :
    ∀ (len : Nat) (l : List α), l.length ≤ len →
      ∀ c ∈ chunksOf (n + 1) l, c.length ≤ n + 1 := by
  intro len
  induction len with
  | zero =>
    intro l hl c hc
    cases l with
    | nil => exact absurd hc (List.not_mem_nil c)
    | cons x xs => simp at hl
  | succ k ih =>
    intro l hl c hc
    cases l with
    | nil => exact absurd hc (List.not_mem_nil c)
    | cons x xs =>
      rw [chunksOf_cons] at hc
      simp only [Nat.add_sub_cancel] at hc
      rcases List.mem_cons.mp hc with h | h
      · subst h
        simp only [List.length_cons]
        have := List.length_take_le n xs
        omega
      · exact ih (xs.drop n) (by simp only [List.length_drop]; simp at hl; omega) c h

theorem chunksOf_length_le (n : Nat) (l : List α) :
    ∀ c ∈ chunksOf (n + 1) l, c.length ≤ n + 1 :=
  chunksOf_length_le_aux n l.length l (Nat.le_refl _)

theorem settleAll_fill_getElem (f : α → β) (batch : List α) :
    ∀ (order : List Nat) (acc : List (Option β)),
      acc.length = batch.length →
      (∀ j ∈ order, j < batch.length) →
      ∀ i,
        (order.foldl (fun acc j =>
          match batch[j]? with
          | some a => acc.set j (some (f a))
          | none => acc) acc)[i]? =
        if i ∈ order then (batch[i]?).map (fun a => some (f a)) else acc[i]? := by
  intro order
  induction order with
  | nil =>
    intro acc hlen hb i
    simp
  | cons j rest ih =>
    intro acc hlen hb i
    rw [List.foldl_cons]
    have hjlt : j < batch.length := hb j (List.mem_cons_self j rest)
    have ha : batch[j]? = some batch[j] := List.getElem?_eq_getElem hjlt
    rw [ha]
    rw [ih _ (by simp [hlen]) (fun x hx => hb x (List.mem_cons_of_mem _ hx)) i]
    by_cases hir : i ∈ rest
    · rw [if_pos hir, if_pos (List.mem_cons_of_mem _ hir)]
    · rw [if_neg hir]
      by_cases hij : i = j
      · subst hij
        rw [List.getElem?_set_self (by omega : i < acc.length)]
        rw [if_pos (List.mem_cons_self i rest), ha]
        rfl
      · rw [List.getElem?_set_ne (fun h => hij h.symm)]
        rw [if_neg (by simp [List.mem_cons, hij, hir])]

theorem settleAll_perm (f : α → β) (batch : List α) (order : List Nat)
    (hperm : order.Perm (List.range batch.length)) :
    settleAll f batch order = some (batch.map f) := by
  have hb : ∀ j ∈ order, j < batch.length := fun j hj =>
    List.mem_range.mp (hperm.mem_iff.mp hj)
  have hmem : ∀ i, i < batch.length → i ∈ order := fun i hi =>
    hperm.mem_iff.mpr (List.mem_range.mpr hi)
  unfold settleAll
  have hslots : (order.foldl (fun acc j =>
      match batch[j]? with
      | some a => acc.set j (some (f a))
      | none => acc) (List.replicate batch.length none)) =
      batch.map (fun a => some (f a)) := by
    apply List.ext_getElem?
    intro i
    rw [settleAll_fill_getElem f batch order _ (by simp) hb i]
    by_cases hi : i < batch.length
    · rw [if_pos (hmem i hi), List.getElem?_map]
    · rw [if_neg (fun h => hi (hb i h))]
      rw [List.getElem?_replicate]
      rw [if_neg hi]
      rw [Eq.comm, List.getElem?_eq_none]
      simp
      omega
  rw [hslots]
  rw [if_pos ?hall]
  case hall =>
    simp [List.all_eq_true]
  congr 1
  rw [List.filterMap_map]
  show List.filterMap (some ∘ f) batch = List.map f batch
  rw [List.filterMap_eq_map]

theorem runBatches_all_perm (f : α → β) :
    ∀ (batches : List (List α)) (orders : List (List Nat)),
      batches.length = orders.length →
      (∀ p ∈ batches.zip orders, (p.2 : List Nat).Perm (List.range p.1.length)) →
      runBatches f batches orders = some (batches.flatten.map f) := by
  intro batches
  induction batches with
  | nil =>
    intro orders h1 h2
    rfl
  | cons b bs ih =>
    intro orders h1 h2
    cases orders with
    | nil => simp at h1
    | cons o os =>
      rw [runBatches]
      rw [settleAll_perm f b o (h2 (b, o) (by simp))]
      rw [ih os (by simpa using h1) (fun p hp => h2 p (List.mem_cons_of_mem _ hp))]
      simp

theorem analyzeUrl_url (net : String → FetchEnv) (u : String) :
    (analyzeUrl net u).url = u := by
  unfold analyzeUrl
  cases (fetchWithCorsFallback (net u)).1 with
  | error msg => rfl
  | ok r => by_cases h : r.isOk <;> simp [h]

/-- C4.  Page analysis runs in consecutive batches of at most 10 requests
(`CONCURRENCY_LIMIT`); each batch settles fully before the next starts (the
sequential `runBatches` barrier); and whatever the per-request completion
orders within each batch, the final result list is exactly the input list
mapped through the analyzer — equal length and matching URL order. -/
theorem performAnalysis_batch_order (net : String → FetchEnv)
    (urls : List String) (orders : List (List Nat))
    (hlen : (chunksOf 10 urls).length = orders.length)
    (hperm : ∀ p ∈ (chunksOf 10 urls).zip orders,
      (p.2 : List Nat).Perm (List.range p.1.length)) :
    batchedAnalysis (analyzeUrl net) urls orders = some (urls.map (analyzeUrl net))
    ∧ (urls.map (analyzeUrl net)).map (fun u => u.url) = urls
    ∧ ∀ c ∈ chunksOf 10 urls, c.length ≤ 10 := by
  refine ⟨?_, ?_, ?_⟩
  · unfold batchedAnalysis
    rw [runBatches_all_perm (analyzeUrl net) _ _ hlen hperm]
    rw [show (10 : Nat) = 9 + 1 from rfl, chunksOf_flatten]
  · rw [List.map_map]
    have : List.map ((fun (u : UrlInfo) => u.url) ∘ analyzeUrl net) urls =
        List.map id urls :=
      List.map_congr_left (fun u _ => analyzeUrl_url net u)
    rw [this]
    exact List.map_id urls
  · exact chunksOf_length_le 9 urls

theorem performAnalysis_batch_order_witness :
    batchedAnalysis
      (analyzeUrl (fun _ => ⟨.resp ⟨200, ⟨some "T", none, "b"⟩⟩, .typeError ""⟩))
      ["https://e.com/a", "https://e.com/b", "https://e.com/c"] [[2, 0, 1]]
      = some (["https://e.com/a", "https://e.com/b", "https://e.com/c"].map
          (analyzeUrl (fun _ => ⟨.resp ⟨200, ⟨some "T", none, "b"⟩⟩, .typeError ""⟩)))
    ∧ (["https://e.com/a", "https://e.com/b", "https://e.com/c"].map
        (analyzeUrl (fun _ => ⟨.resp ⟨200, ⟨some "T", none, "b"⟩⟩, .typeError ""⟩))).map
        (fun u => u.url) = ["https://e.com/a", "https://e.com/b", "https://e.com/c"] :=
  ⟨(performAnalysis_batch_order _ _ _ (by rfl)
      (by
        intro p hp
        simp only [chunksOf, chunksOfFuel, List.zip, List.zipWith, List.mem_singleton] at hp
        subst hp
        decide)).1,
   (performAnalysis_batch_order
      (fun _ => ⟨.resp ⟨200, ⟨some "T", none, "b"⟩⟩, .typeError ""⟩)
      ["https://e.com/a", "https://e.com/b", "https://e.com/c"] [[2, 0, 1]] (by rfl)
      (by
        intro p hp
        simp only [chunksOf, chunksOfFuel, List.zip, List.zipWith, List.mem_singleton] at hp
        subst hp
        decide)).2.1⟩

theorem analyzeUrl_failed_beq (net : String → FetchEnv) (u : String) :
    ((analyzeUrl net u).schemaStatus == SchemaStatus.AnalysisFailed) =
      pageFetchFails net u := by
  unfold analyzeUrl pageFetchFails
  cases (fetchWithCorsFallback (net u)).1 with
  | error msg => rfl
  | ok r =>
    by_cases h : r.isOk
    · by_cases h2 : r.page.ldJsonBody.isSome <;> simp [h, h2]
    · simp [h]

theorem analyzeUrl_failed_error (net : String → FetchEnv) (u : String)
    (h : (analyzeUrl net u).schemaStatus = .AnalysisFailed) :
    (analyzeUrl net u).analysisError.isSome = true := by
  unfold analyzeUrl at *
  cases hx : (fetchWithCorsFallback (net u)).1 with
  | error msg => rfl
  | ok r =>
    rw [hx] at h
    by_cases hk : r.isOk
    · by_cases h2 : r.page.ldJsonBody.isSome <;> simp [hk, h2] at h
    · simp [hk]

/-- C5.  For 10 URLs of which exactly one page fetch fails, the analysis
batch resolves (`analyzeUrl` catches every failure, so `Promise.all` never
rejects — the driver is total and returns `some`), yielding 10 records: 9
with a non-`AnalysisFailed` status and 1 with `AnalysisFailed` carrying a
captured error message. -/
theorem performAnalysis_partial_failure (net : String → FetchEnv)
    (urls : List String) (orders : List (List Nat))
    (hlen : (chunksOf 10 urls).length = orders.length)
    (hperm : ∀ p ∈ (chunksOf 10 urls).zip orders,
      (p.2 : List Nat).Perm (List.range p.1.length))
    (h10 : urls.length = 10)
    (hone : (urls.filter (pageFetchFails net)).length = 1) :
    batchedAnalysis (analyzeUrl net) urls orders = some (urls.map (analyzeUrl net))
    ∧ (urls.map (analyzeUrl net)).length = 10
    ∧ ((urls.map (analyzeUrl net)).filter
        (fun u => u.schemaStatus == SchemaStatus.AnalysisFailed)).length = 1
    ∧ ((urls.map (analyzeUrl net)).filter
        (fun u => !(u.schemaStatus == SchemaStatus.AnalysisFailed))).length = 9
    ∧ ∀ u ∈ urls.map (analyzeUrl net),
        u.schemaStatus = .AnalysisFailed → u.analysisError.isSome = true := by
  have hfail : ((urls.map (analyzeUrl net)).filter
      (fun u => u.schemaStatus == SchemaStatus.AnalysisFailed)).length = 1 := by
    rw [List.filter_map (p := fun u => u.schemaStatus == SchemaStatus.AnalysisFailed)
      (analyzeUrl net) urls]
    rw [List.length_map]
    show (List.filter
      (fun u => (analyzeUrl net u).schemaStatus == SchemaStatus.AnalysisFailed) urls).length = 1
    rw [List.filter_congr (fun u _ => analyzeUrl_failed_beq net u)]
    exact hone
  refine ⟨(performAnalysis_batch_order net urls orders hlen hperm).1,
    by rw [List.length_map]; exact h10, hfail, ?_, ?_⟩
  · have htotal := List.length_eq_length_filter_add
      (l := urls.map (analyzeUrl net))
      (fun u => u.schemaStatus == SchemaStatus.AnalysisFailed)
    rw [List.length_map, h10, hfail] at htotal
    omega
  · intro u hu hstatus
    obtain ⟨v, _, rfl⟩ := List.mem_map.mp hu
    exact analyzeUrl_failed_error net v hstatus

theorem performAnalysis_partial_failure_witness :
    ((["a", "b", "c", "d", "e", "f", "g", "h", "i", "j"].map
      (analyzeUrl (fun u => if u == "d" then ⟨.typeError "net down", .typeError "net down"⟩
        else ⟨.resp ⟨200, ⟨some "T", none, "x"⟩⟩, .typeError ""⟩))).filter
        (fun u => u.schemaStatus == SchemaStatus.AnalysisFailed)).length = 1
    ∧ ((["a", "b", "c", "d", "e", "f", "g", "h", "i", "j"].map
      (analyzeUrl (fun u => if u == "d" then ⟨.typeError "net down", .typeError "net down"⟩
        else ⟨.resp ⟨200, ⟨some "T", none, "x"⟩⟩, .typeError ""⟩))).filter
        (fun u => !(u.schemaStatus == SchemaStatus.AnalysisFailed))).length = 9 :=
  ⟨(performAnalysis_partial_failure
      (fun u => if u == "d" then ⟨.typeError "net down", .typeError "net down"⟩
        else ⟨.resp ⟨200, ⟨some "T", none, "x"⟩⟩, .typeError ""⟩)
      ["a", "b", "c", "d", "e", "f", "g", "h", "i", "j"]
      [[0, 1, 2, 3, 4, 5, 6, 7, 8, 9]] (by rfl)
      (by
        intro p hp
        simp only [chunksOf, chunksOfFuel, List.zip, List.zipWith, List.mem_singleton] at hp
        subst hp
        decide)
      (by rfl) (by decide)).2.2.1,
   (performAnalysis_partial_failure
      (fun u => if u == "d" then ⟨.typeError "net down", .typeError "net down"⟩
        else ⟨.resp ⟨200, ⟨some "T", none, "x"⟩⟩, .typeError ""⟩)
      ["a", "b", "c", "d", "e", "f", "g", "h", "i", "j"]
      [[0, 1, 2, 3, 4, 5, 6, 7, 8, 9]] (by rfl)
      (by
        intro p hp
        simp only [chunksOf, chunksOfFuel, List.zip, List.zipWith, List.mem_singleton] at hp
        subst hp
        decide)
      (by rfl) (by decide)).2.2.2.1⟩

/-- Record updates in the generation loop never change a record's URL. -/
theorem applyGeneration_url (ai : AiEnv) (env : HostEnv) (t u : UrlInfo) :
    (applyGeneration ai env t u).url = u.url := by
  unfold applyGeneration
  cases generationOutcome ai t <;> rfl

theorem generationStep_map_form (ai : AiEnv) (env : HostEnv) (t : UrlInfo)
    (cur : List UrlInfo) :
    generationStep ai env t cur =
      cur.map (fun u => if u.url == t.url then applyGeneration ai env t u else u) := rfl

theorem performGeneration_loop_map (ai : AiEnv) (env : HostEnv) :
    ∀ (todo : List UrlInfo), (todo.map (fun u => u.url)).Nodup →
      ∀ (cur : List UrlInfo),
        todo.foldl (fun currentList u => generationStep ai env u currentList) cur =
          cur.map (fun v =>
            match todo.find? (fun t => t.url == v.url) with
            | some t => applyGeneration ai env t v
            | none => v) := by
  intro todo
  induction todo with
  | nil =>
    intro _ cur
    simp
  | cons t rest ih =>
    intro hN cur
    rw [List.foldl_cons]
    rw [ih (by simpa using hN.of_cons) (generationStep ai env t cur)]
    rw [generationStep_map_form, List.map_map]
    apply List.map_congr_left
    intro v _
    simp only [Function.comp_apply]
    by_cases hv : v.url == t.url
    · rw [if_pos hv]
      have hurl : (applyGeneration ai env t v).url = v.url := applyGeneration_url ai env t v
      have hfind : rest.find? (fun r => r.url == (applyGeneration ai env t v).url) = none := by
        rw [List.find?_eq_none]
        intro r hr
        rw [hurl]
        have hvt : v.url = t.url := beq_iff_eq.mp hv
        rw [hvt]
        intro hc
        have : t.url ∈ rest.map (fun u => u.url) :=
          List.mem_map.mpr ⟨r, hr, beq_iff_eq.mp hc⟩
        simp only [List.map_cons, List.nodup_cons] at hN
        exact hN.1 this
      rw [List.find?_cons]
      have htv : (t.url == v.url) = true := by
        rw [beq_iff_eq] at hv ⊢
        exact hv.symm
      rw [htv]
      simp only [hfind]
    · rw [if_neg (by simpa using hv)]
      rw [List.find?_cons]
      have htv : (t.url == v.url) = false := by
        rw [Bool.eq_false_iff]
        intro hc
        exact hv (by rw [beq_iff_eq] at hc ⊢; exact hc.symm)
      rw [htv]

theorem find?_self_of_nodup :
    ∀ (l : List UrlInfo), (l.map (fun u => u.url)).Nodup →
      ∀ v ∈ l, l.find? (fun t => t.url == v.url) = some v := by
  intro l
  induction l with
  | nil =>
    intro _ v hv
    exact absurd hv (List.not_mem_nil v)
  | cons a rest ih =>
    intro hN v hv
    rcases List.mem_cons.mp hv with h | h
    · subst h
      rw [List.find?_cons]
      simp
    · rw [List.find?_cons]
      have ha : (a.url == v.url) = false := by
        rw [Bool.eq_false_iff]
        intro hc
        have : a.url ∈ rest.map (fun u => u.url) :=
          List.mem_map.mpr ⟨v, h, (beq_iff_eq.mp hc).symm⟩
        simp only [List.map_cons, List.nodup_cons] at hN
        exact hN.1 this
      rw [ha]
      exact ih (by simpa using hN.of_cons) v h

theorem performGeneration_pointwise (ai : AiEnv) (env : HostEnv)
    (l : List UrlInfo) (hN : (l.map (fun u => u.url)).Nodup) :
    performGeneration ai env l = l.map (fun u => applyGeneration ai env u u) := by
  unfold performGeneration
  rw [performGeneration_loop_map ai env l hN l]
  apply List.map_congr_left
  intro v hv
  rw [find?_self_of_nodup l hN v hv]

/-- C8, counterexample.  The claim says a failing one-time
classification/suggestion call "degrades gracefully ... and the run
continues rather than aborting".  In `performAnalysis` that call is not
wrapped in a `try`: when `suggestSchemaTypes` throws, the error propagates
out of the suggestion phase (and `handleStartAnalysis`/`runAutoPilot` then
abort the run back to the credentials step).  Concretely, one analyzable
`NotFound` URL and a throwing suggest call yield `Except.error`, not a
continued run with a default type. -/
theorem suggestionPhase_abort_counterexample :
    suggestionPhase
      ⟨fun _ => .error "AI failed to suggest schema types.", fun _ => [],
       fun _ => .error "x", fun _ => .error "x"⟩
      [{ url := "https://e.com/a", title := "A", schemaStatus := .NotFound,
         content := some "text" }] =
      .error "AI failed to suggest schema types." := by
  rfl

/-- C8, amended.  A thrown one-time classification/suggestion call is
batch-fatal: `performAnalysis` propagates the error and the run aborts.
Graceful degradation to the default type `Article` applies per URL when the
(successful) suggestion mapping lacks an entry for that URL.  A thrown
`AiError` during generation/audit is handled per item: the loop is total,
and with distinct URLs each record's outcome depends only on its own
generation/audit result — a failure marks that record `Failed` with the
captured message and never unwinds past it. -/
theorem suggestion_generation_amended (ai : AiEnv) (env : HostEnv)
    (l : List UrlInfo) (e : String) :
    ((urlsToSuggestOf l).isEmpty = false →
      ai.suggest (urlsToSuggestOf l) = .error e → suggestionPhase ai l = .error e)
    ∧ (∀ m, (urlsToSuggestOf l).isEmpty = false →
        ai.suggest (urlsToSuggestOf l) = .ok m →
        suggestionPhase ai l = .ok (l.map (applySuggestions ai m)))
    ∧ ((urlsToSuggestOf l).isEmpty = true →
        suggestionPhase ai l = .ok (l.map (applySuggestions ai [])))
    ∧ (∀ m u, (m.find? fun p => p.1 == u.url) = none →
        (applySuggestions ai m u).selectedSchemaType = .Article)
    ∧ ((l.map (fun u => u.url)).Nodup →
        performGeneration ai env l = l.map (fun u => applyGeneration ai env u u))
    ∧ (∀ u msg, generationOutcome ai u = .error msg →
        applyGeneration ai env u u =
          { u with generationStatus := .Failed, generationError := some msg }) := by
  refine ⟨?_, ?_, ?_, ?_, ?_, ?_⟩
  · intro hne hsug
    simp only [suggestionPhase, hne, hsug, Bool.false_eq_true, if_false]
  · intro m hne hsug
    simp only [suggestionPhase, hne, hsug, Bool.false_eq_true, if_false]
  · intro hemp
    simp only [suggestionPhase, hemp, if_true]
  · intro m u hfind
    unfold applySuggestions
    rw [hfind]
    rfl
  · intro hN
    exact performGeneration_pointwise ai env l hN
  · intro u msg hout
    unfold applyGeneration
    rw [hout]

/-- C8, witness for the amended theorem: a throwing suggest call aborts the
phase; a two-URL generation run where the second URL's generation throws
produces the pointwise outcome list, the failed record carrying
`Failed`/`generationError` while the first record is unaffected. -/
theorem suggestion_generation_amended_witness :
    suggestionPhase
      ⟨fun _ => .error "boom", fun _ => [],
       fun u => if u == "https://e.com/b" then .error "gen failed"
         else .ok (Json.obj [("@type", Json.str "Article")]),
       fun _ => .error "x"⟩
      [{ url := "https://e.com/a", title := "A", schemaStatus := .NotFound,
         content := some "text" }] = .error "boom"
    ∧ performGeneration
      ⟨fun _ => .error "boom", fun _ => [],
       fun u => if u == "https://e.com/b" then .error "gen failed"
         else .ok (Json.obj [("@type", Json.str "Article")]),
       fun _ => .error "x"⟩
      ⟨fun _ => true, fun _ => true⟩
      [{ url := "https://e.com/a", title := "A", schemaStatus := .NotFound },
       { url := "https://e.com/b", title := "B", schemaStatus := .NotFound }] =
      [{ url := "https://e.com/a", title := "A", schemaStatus := .NotFound },
       { url := "https://e.com/b", title := "B", schemaStatus := .NotFound }].map
        (fun u => applyGeneration
          ⟨fun _ => .error "boom", fun _ => [],
           fun u => if u == "https://e.com/b" then .error "gen failed"
             else .ok (Json.obj [("@type", Json.str "Article")]),
           fun _ => .error "x"⟩
          ⟨fun _ => true, fun _ => true⟩ u u)
    ∧ applyGeneration
      ⟨fun _ => .error "boom", fun _ => [],
       fun u => if u == "https://e.com/b" then .error "gen failed"
         else .ok (Json.obj [("@type", Json.str "Article")]),
       fun _ => .error "x"⟩
      ⟨fun _ => true, fun _ => true⟩
      { url := "https://e.com/b", title := "B", schemaStatus := .NotFound }
      { url := "https://e.com/b", title := "B", schemaStatus := .NotFound } =
      { url := "https://e.com/b", title := "B", schemaStatus := .NotFound,
        generationStatus := .Failed, generationError := some "gen failed" } :=
  ⟨(suggestion_generation_amended
      ⟨fun _ => .error "boom", fun _ => [],
       fun u => if u == "https://e.com/b" then .error "gen failed"
         else .ok (Json.obj [("@type", Json.str "Article")]),
       fun _ => .error "x"⟩
      ⟨fun _ => true, fun _ => true⟩
      [{ url := "https://e.com/a", title := "A", schemaStatus := .NotFound,
         content := some "text" }] "boom").1 (by rfl) (by rfl),
   (suggestion_generation_amended
      ⟨fun _ => .error "boom", fun _ => [],
       fun u => if u == "https://e.com/b" then .error "gen failed"
         else .ok (Json.obj [("@type", Json.str "Article")]),
       fun _ => .error "x"⟩
      ⟨fun _ => true, fun _ => true⟩
      [{ url := "https://e.com/a", title := "A", schemaStatus := .NotFound },
       { url := "https://e.com/b", title := "B", schemaStatus := .NotFound }]
      "boom").2.2.2.2.1 (by decide),
   (suggestion_generation_amended
      ⟨fun _ => .error "boom", fun _ => [],
       fun u => if u == "https://e.com/b" then .error "gen failed"
         else .ok (Json.obj [("@type", Json.str "Article")]),
       fun _ => .error "x"⟩
      ⟨fun _ => true, fun _ => true⟩ [] "boom").2.2.2.2.2
      { url := "https://e.com/b", title := "B", schemaStatus := .NotFound }
      "gen failed" (by rfl)⟩
